import Mathlib

/-!
Verification of the dist-space collaborative text-editing server.

This file gives a shallow embedding of the server's core data model and
operations (OT transform, document apply, apply pipeline, wire framing,
message envelope) and proves or refutes the frozen specification claims
about them.

Modelling conventions:
* Rust `String` content and operation text are modelled as `List Char`,
  indices counting scalar positions (the spec's "1-char-per-index" model).
* Rust `u32`/`u64`/`u64` fields are modelled as `Nat`; truncating casts are
  made explicit (`% 256` per byte) where byte serialization happens.
* `&mut self` methods that may fail are modelled as functions returning the
  post-state together with an optional error, so that "unchanged on error"
  is a provable statement rather than a modelling artifact.
* The Rust struct field `end` is a Lean keyword and is rendered `end_`.
-/

namespace DistSpace

/-! ### Operations (src/common/src/types.rs) -/

/-- `InsertOp` from src/common/src/types.rs. -/
structure InsertOp where
  index : Nat
  text : List Char
  client_id : String
  client_version : Nat
  deriving Repr, DecidableEq

/-- `DeleteOp` from src/common/src/types.rs (`end` renamed `end_`). -/
structure DeleteOp where
  start : Nat
  end_ : Nat
  client_id : String
  client_version : Nat
  deriving Repr, DecidableEq

/-- `ReplaceOp` from src/common/src/types.rs (`end` renamed `end_`). -/
structure ReplaceOp where
  start : Nat
  end_ : Nat
  text : List Char
  client_id : String
  client_version : Nat
  deriving Repr, DecidableEq

/-- `NoopOp` from src/common/src/types.rs. -/
structure NoopOp where
  client_id : String
  client_version : Nat
  deriving Repr, DecidableEq

/-- `OperationKind` from src/common/src/types.rs. -/
inductive OperationKind where
  | insert (op : InsertOp)
  | delete (op : DeleteOp)
  | replace (op : ReplaceOp)
  | noop (op : NoopOp)
  deriving Repr, DecidableEq

/-! ### Transform (src/server/src/transform.rs) -/

/-- `map_index_after_deletion` from src/server/src/transform.rs. -/
def map_index_after_deletion (i del_start del_end : Nat) : Nat :=
  if i ≤ del_start then i
  else if del_end ≤ i then i - (del_end - del_start)
  else del_start

/-- `map_index_after_insertion` from src/server/src/transform.rs. -/
def map_index_after_insertion (i ins_pos ins_len : Nat) : Nat :=
  if i < ins_pos then i else i + ins_len

/-- `transform` from src/server/src/transform.rs, arm by arm. -/
def transform (op_in op_prev : OperationKind) : OperationKind :=
  match op_in with
  | .noop n => .noop n
  | .insert op =>
    match op_prev with
    | .noop _ => .insert op
    | .insert prev =>
      -- If previous insert was before us (or at same spot with lower ID), we shift right
      if prev.index < op.index ∨ (prev.index = op.index ∧ prev.client_id < op.client_id) then
        .insert { op with index := op.index + prev.text.length }
      else
        .insert op
    | .delete prev =>
      -- Map our insertion point past the deletion
      .insert { op with index := map_index_after_deletion op.index prev.start prev.end_ }
    | .replace prev =>
      -- Replace is effectively Delete then Insert: map past deletion, then past insertion
      let after_del := map_index_after_deletion op.index prev.start prev.end_
      .insert { op with index := map_index_after_insertion after_del prev.start prev.text.length }
  | .delete op =>
    match op_prev with
    | .noop _ => .delete op
    | .insert prev =>
      if prev.index ≤ op.start then
        .delete { op with start := op.start + prev.text.length,
                          end_ := op.end_ + prev.text.length }
      else if prev.index < op.end_ then
        -- If insert is inside our delete range, we expand to include it (simplification)
        .delete { op with end_ := op.end_ + prev.text.length }
      else
        .delete op
    | .delete prev =>
      let new_start := map_index_after_deletion op.start prev.start prev.end_
      let new_end := map_index_after_deletion op.end_ prev.start prev.end_
      if new_start = new_end then
        .noop { client_id := op.client_id, client_version := op.client_version }
      else
        .delete { op with start := new_start, end_ := new_end }
    | .replace prev =>
      -- Replace = Delete + Insert: transform against the Delete part first
      let start_after_del := map_index_after_deletion op.start prev.start prev.end_
      let end_after_del := map_index_after_deletion op.end_ prev.start prev.end_
      if start_after_del = end_after_del then
        .noop { client_id := op.client_id, client_version := op.client_version }
      else
        -- then against the Insert part (at prev.start), logic from Delete vs Insert above
        let ins_index := prev.start
        let ins_len := prev.text.length
        if ins_index ≤ start_after_del then
          .delete { op with start := start_after_del + ins_len, end_ := end_after_del + ins_len }
        else if ins_index < end_after_del then
          .delete { op with start := start_after_del, end_ := end_after_del + ins_len }
        else
          .delete { op with start := start_after_del, end_ := end_after_del }
  | .replace op =>
    match op_prev with
    | .noop _ => .replace op
    | .insert prev =>
      -- Adjust start/end like Delete
      if prev.index ≤ op.start then
        .replace { op with start := op.start + prev.text.length,
                           end_ := op.end_ + prev.text.length }
      else if prev.index < op.end_ then
        .replace { op with end_ := op.end_ + prev.text.length }
      else
        .replace op
    | .delete prev =>
      let new_start := map_index_after_deletion op.start prev.start prev.end_
      let new_end := map_index_after_deletion op.end_ prev.start prev.end_
      if new_start = new_end then
        -- Range collapsed, but we still have text to insert: becomes an Insert
        .insert { index := new_start, text := op.text,
                  client_id := op.client_id, client_version := op.client_version }
      else
        .replace { op with start := new_start, end_ := new_end }
    | .replace prev =>
      -- Map range against prev (Delete + Insert)
      let start_after_del := map_index_after_deletion op.start prev.start prev.end_
      let end_after_del := map_index_after_deletion op.end_ prev.start prev.end_
      let start_final := map_index_after_insertion start_after_del prev.start prev.text.length
      let end_final := map_index_after_insertion end_after_del prev.start prev.text.length
      if start_final = end_final then
        .insert { index := start_final, text := op.text,
                  client_id := op.client_id, client_version := op.client_version }
      else
        .replace { op with start := start_final, end_ := end_final }

/-! ### Document (src/common/src/document.rs) -/

/-- `Document` from src/common/src/document.rs (the opaque `uuid` field is
dropped: no claim mentions it and it is never read or written by `apply_op`). -/
structure Document where
  content : List Char
  version : Nat
  deriving Repr, DecidableEq

/-- The two guard failures of `Document::apply_op` (the Rust code returns
`Err(String)` with a formatted message; the message text is immaterial to
every claim, only which guard fired). -/
inductive ApplyError where
  | indexOutOfBounds
  | invalidRange
  deriving Repr, DecidableEq

/-- `Document::apply_op` from src/common/src/document.rs. The Rust method
takes `&mut self` and returns `Result<(), String>`; we return the post-state
paired with the optional error (the state is returned unchanged exactly when
the Rust method early-returns before mutating). -/
def Document.apply_op (d : Document) (op : OperationKind) : Document × Option ApplyError :=
  match op with
  | .insert o =>
    if d.content.length < o.index then
      (d, some .indexOutOfBounds)
    else
      ({ content := d.content.take o.index ++ o.text ++ d.content.drop o.index,
         version := d.version + 1 }, none)
  | .delete o =>
    if d.content.length < o.end_ ∨ o.end_ < o.start then
      (d, some .invalidRange)
    else
      ({ content := d.content.take o.start ++ d.content.drop o.end_,
         version := d.version + 1 }, none)
  | .replace o =>
    if d.content.length < o.end_ ∨ o.end_ < o.start then
      (d, some .invalidRange)
    else
      ({ content := d.content.take o.start ++ o.text ++ d.content.drop o.end_,
         version := d.version + 1 }, none)
  | .noop _ => ({ content := d.content, version := d.version + 1 }, none)

/-- Content-level application: the effect of `Document::apply_op` on the
text alone, `none` when the guards reject. -/
def applyContent (content : List Char) (op : OperationKind) : Option (List Char) :=
  match Document.apply_op { content := content, version := 0 } op with
  | (d, none) => some d.content
  | (_, some _) => none

/-- Validity of an operation at a document, as the claims put it: indices
within `len(D)`, `start ≤ end`. -/
def validAt (D : List Char) : OperationKind → Bool
  | .insert o => o.index ≤ D.length
  | .delete o => o.start ≤ o.end_ ∧ o.end_ ≤ D.length
  | .replace o => o.start ≤ o.end_ ∧ o.end_ ≤ D.length
  | .noop _ => true

/-- One side of the TP1 diamond: apply `a`, then apply `b` rebased past `a`. -/
def otPath (D : List Char) (a b : OperationKind) : Option (List Char) :=
  (applyContent D a).bind fun d1 => applyContent d1 (transform b a)

/-- Shorthand for the edit `String::insert_str` performs at scalar index `i`. -/
def insAt (i : Nat) (t l : List Char) : List Char := l.take i ++ t ++ l.drop i

/-- Shorthand for the edit `String::replace_range(s..e, "")` performs. -/
def delR (s e : Nat) (l : List Char) : List Char := l.take s ++ l.drop e

/-- Spec-side guard condition of `Document::apply_op`, word for word from the
claim: Insert rejected iff `index > len`, Delete/Replace rejected iff
`end > len` or `start > end`, Noop never rejected. -/
def applyRejects (op : OperationKind) (len : Nat) : Bool :=
  match op with
  | .insert o => len < o.index
  | .delete o => len < o.end_ || o.end_ < o.start
  | .replace o => len < o.end_ || o.end_ < o.start
  | .noop _ => false

/-- Spec-side content effect of a successful apply (Noop leaves the content
unchanged). -/
def editedContent (content : List Char) : OperationKind → List Char
  | .insert o => content.take o.index ++ o.text ++ content.drop o.index
  | .delete o => content.take o.start ++ content.drop o.end_
  | .replace o => content.take o.start ++ o.text ++ content.drop o.end_
  | .noop _ => content

/-- Which guard error each operation kind can produce. -/
def guardError : OperationKind → ApplyError
  | .insert _ => .indexOutOfBounds
  | _ => .invalidRange

/-! ### Wire bytes and message envelope (src/common/src/frame.rs, protocol.rs) -/

/-- `Frame` from src/common/src/frame.rs; bytes are `Nat` values below 256. -/
structure Frame where
  payload : List Nat
  deriving Repr, DecidableEq

/-- `Frame::total_len` from src/common/src/frame.rs. -/
def Frame.total_len (f : Frame) : Nat := 4 + f.payload.length

/-- Big-endian bytes of `n as u32` (`u32::to_be_bytes`, `BufMut::put_u32`);
the `% 256` per byte makes the u32 truncation explicit. -/
def u32be (n : Nat) : List Nat :=
  [n / 16777216 % 256, n / 65536 % 256, n / 256 % 256, n % 256]

/-- Big-endian bytes of `n as u64` (`u64::to_be_bytes`). -/
def u64be (n : Nat) : List Nat :=
  [n / 72057594037927936 % 256, n / 281474976710656 % 256, n / 1099511627776 % 256,
   n / 4294967296 % 256, n / 16777216 % 256, n / 65536 % 256, n / 256 % 256, n % 256]

/-- `u64::from_be_bytes` on a byte list (`ServerMessage::decode` applies it to
the first 8 payload bytes). -/
def beU64 (b : List Nat) : Nat := b.foldl (fun acc x => acc * 256 + x) 0

/-- `OperationProto` from the prost-generated module `common::proto::space`
(generated by src/common/build.rs from proto/space.proto, which is not under
src/). The fields are pinned by their uses in src/server/src/state.rs and
src/server/src/reader.rs; the `oneof kind` payloads carry exactly the fields
`Operation::convert_operation` (src/common/src/types.rs) copies into
`OperationKind`, so they are shared here. -/
structure OperationProto where
  op_id : Nat
  doc_id : String
  client_id : String
  client_version : Nat
  new_content : List Char
  kind : Option OperationKind
  deriving Repr, DecidableEq

/-- `SyncDocumentProto` from the generated module; fields pinned by
src/server/src/state.rs and src/server/src/main.rs. -/
structure SyncDocumentProto where
  doc_id : String
  content : List Char
  version : Nat
  deriving Repr, DecidableEq

/-- Modelled from the spec: the Protobuf body codec (prost `encode_to_vec` /
`decode`) is generated code not under src/; §6 delegates it to "a stable
schema" and requires only that "the implementer must choose a single
encoding". We fix one: each scalar of a string as 4 big-endian bytes. -/
def encChars : List Char → List Nat
  | [] => []
  | c :: cs => u32be c.toNat ++ encChars cs

/-- Inverse of `encChars`, 4 bytes per scalar. -/
def decChars : List Nat → List Char
  | b0 :: b1 :: b2 :: b3 :: rest =>
    Char.ofNat (((b0 * 256 + b1) * 256 + b2) * 256 + b3) :: decChars rest
  | _ => []

/-- Modelled from the spec (stable schema, see `encChars`): a string field is
its 4-byte big-endian length followed by its scalars. -/
def encStr (s : List Char) : List Nat := u32be s.length ++ encChars s

/-- Read one string field; `none` if the buffer is too short. -/
def decStr (bs : List Nat) : Option (List Char × List Nat) :=
  match bs with
  | b0 :: b1 :: b2 :: b3 :: rest =>
    let n := ((b0 * 256 + b1) * 256 + b2) * 256 + b3
    if 4 * n ≤ rest.length then some (decChars (rest.take (4 * n)), rest.drop (4 * n))
    else none
  | _ => none

/-- String fields kept as Lean `String` (client and document ids). -/
def encStrS (s : String) : List Nat := encStr s.data

/-- Read one `String` field. -/
def decStrS (bs : List Nat) : Option (String × List Nat) :=
  (decStr bs).map fun p => (String.mk p.1, p.2)

/-- Read one 8-byte big-endian numeric field. -/
def decU64 (bs : List Nat) : Option (Nat × List Nat) :=
  match bs with
  | b0 :: b1 :: b2 :: b3 :: b4 :: b5 :: b6 :: b7 :: rest =>
    let v1 := ((b0 * 256 + b1) * 256 + b2) * 256 + b3
    let v2 := ((v1 * 256 + b4) * 256 + b5) * 256 + b6
    some (v2 * 256 + b7, rest)
  | _ => none

/-- Modelled from the spec (stable schema): the `oneof kind` as a tag byte
(0 = absent, 1..4 = Insert/Delete/Replace/Noop) followed by the fields
`Operation::convert_operation` reads. -/
def encodeKind : Option OperationKind → List Nat
  | none => [0]
  | some (.insert o) =>
    1 :: (u64be o.index ++ encStr o.text ++ encStrS o.client_id ++ u64be o.client_version)
  | some (.delete o) =>
    2 :: (u64be o.start ++ u64be o.end_ ++ encStrS o.client_id ++ u64be o.client_version)
  | some (.replace o) =>
    3 :: (u64be o.start ++ u64be o.end_ ++ encStr o.text ++ encStrS o.client_id ++
      u64be o.client_version)
  | some (.noop o) => 4 :: (encStrS o.client_id ++ u64be o.client_version)

/-- Inverse of `encodeKind`. -/
def decodeKind (bs : List Nat) : Option (Option OperationKind × List Nat) :=
  match bs with
  | 0 :: rest => some (none, rest)
  | 1 :: rest => do
    let (index, r1) ← decU64 rest
    let (text, r2) ← decStr r1
    let (cid, r3) ← decStrS r2
    let (cv, r4) ← decU64 r3
    some (some (.insert ⟨index, text, cid, cv⟩), r4)
  | 2 :: rest => do
    let (start, r1) ← decU64 rest
    let (end_, r2) ← decU64 r1
    let (cid, r3) ← decStrS r2
    let (cv, r4) ← decU64 r3
    some (some (.delete ⟨start, end_, cid, cv⟩), r4)
  | 3 :: rest => do
    let (start, r1) ← decU64 rest
    let (end_, r2) ← decU64 r1
    let (text, r3) ← decStr r2
    let (cid, r4) ← decStrS r3
    let (cv, r5) ← decU64 r4
    some (some (.replace ⟨start, end_, text, cid, cv⟩), r5)
  | 4 :: rest => do
    let (cid, r1) ← decStrS rest
    let (cv, r2) ← decU64 r1
    some (some (.noop ⟨cid, cv⟩), r2)
  | _ => none

/-- Modelled from the spec (stable schema): `OperationProto::encode_to_vec`. -/
def encodeOperationProto (p : OperationProto) : List Nat :=
  u64be p.op_id ++ encStrS p.doc_id ++ encStrS p.client_id ++ u64be p.client_version ++
    encStr p.new_content ++ encodeKind p.kind

/-- Modelled from the spec (stable schema): `OperationProto::decode`; prost
decoders consume the whole buffer, so trailing bytes are an error. -/
def decodeOperationProto (bs : List Nat) : Option OperationProto := do
  let (op_id, r1) ← decU64 bs
  let (doc_id, r2) ← decStrS r1
  let (client_id, r3) ← decStrS r2
  let (client_version, r4) ← decU64 r3
  let (new_content, r5) ← decStr r4
  let (kind, r6) ← decodeKind r5
  if r6 = [] then some ⟨op_id, doc_id, client_id, client_version, new_content, kind⟩
  else none

/-- Modelled from the spec (stable schema): `SyncDocumentProto::encode_to_vec`. -/
def encodeSyncDocumentProto (p : SyncDocumentProto) : List Nat :=
  encStrS p.doc_id ++ encStr p.content ++ u64be p.version

/-- Modelled from the spec (stable schema): `SyncDocumentProto::decode`. -/
def decodeSyncDocumentProto (bs : List Nat) : Option SyncDocumentProto := do
  let (doc_id, r1) ← decStrS bs
  let (content, r2) ← decStr r1
  let (version, r3) ← decU64 r2
  if r3 = [] then some ⟨doc_id, content, version⟩ else none

/-- Message type id constants from src/common/src/protocol.rs. -/
def MSG_TYPE_OPERATION : Nat := 1

/-- Type id of `SyncDocument`. -/
def MSG_TYPE_SYNC_DOCUMENT : Nat := 2

/-- Type id of `Ping`. -/
def MSG_TYPE_PING : Nat := 3

/-- Type id of `Pong`. -/
def MSG_TYPE_PONG : Nat := 4

/-- `ServerMessage` from src/common/src/protocol.rs. -/
inductive ServerMessage where
  | Operation (op : OperationProto)
  | SyncDocument (sync : SyncDocumentProto)
  | Ping (seq : Nat)
  | Pong (seq : Nat)
  deriving Repr, DecidableEq

/-- The `(type_id, serialized_payload)` pair computed at the top of
`ServerMessage::encode` (src/common/src/protocol.rs). -/
def ServerMessage.payload_parts : ServerMessage → Nat × List Nat
  | .Operation op_proto => (MSG_TYPE_OPERATION, encodeOperationProto op_proto)
  | .SyncDocument sync_proto => (MSG_TYPE_SYNC_DOCUMENT, encodeSyncDocumentProto sync_proto)
  | .Ping seq => (MSG_TYPE_PING, u64be seq)
  | .Pong seq => (MSG_TYPE_PONG, u64be seq)

/-- `ServerMessage::encode` from src/common/src/protocol.rs: a u32 length
(covering type id + payload), the type id byte, then the payload. -/
def ServerMessage.encode (m : ServerMessage) : List Nat :=
  let total_payload_length := m.payload_parts.2.length + 1
  u32be total_payload_length ++ m.payload_parts.1 :: m.payload_parts.2

/-- `ServerMessage::get_message_type_id` from src/common/src/protocol.rs. -/
def ServerMessage.get_message_type_id : ServerMessage → Nat
  | .Operation _ => MSG_TYPE_OPERATION
  | .SyncDocument _ => MSG_TYPE_SYNC_DOCUMENT
  | .Ping _ => MSG_TYPE_PING
  | .Pong _ => MSG_TYPE_PONG

/-- `ServerMessage::decode` from src/common/src/protocol.rs: reads (and
ignores) a 4-byte total length, reads the type id byte, and decodes the rest
by type id (`bytes::Buf` panics on a short buffer; modelled as an error). -/
def ServerMessage.decode (frame_bytes : List Nat) : Except String ServerMessage :=
  match frame_bytes with
  | _b0 :: _b1 :: _b2 :: _b3 :: type_id :: payload_slice =>
    if type_id = MSG_TYPE_OPERATION then
      match decodeOperationProto payload_slice with
      | some proto => .ok (.Operation proto)
      | none => .error "proto decode failed"
    else if type_id = MSG_TYPE_SYNC_DOCUMENT then
      match decodeSyncDocumentProto payload_slice with
      | some proto => .ok (.SyncDocument proto)
      | none => .error "proto decode failed"
    else if type_id = MSG_TYPE_PING then
      if payload_slice.length < 8 then .error "Ping payload too short"
      else .ok (.Ping (beU64 (payload_slice.take 8)))
    else if type_id = MSG_TYPE_PONG then
      if payload_slice.length < 8 then .error "Pong payload too short"
      else .ok (.Pong (beU64 (payload_slice.take 8)))
    else .error "Unknown message type ID"
  | _ => .error "buffer too short"

/-- The bytes `Writer::write_frames` (src/server/src/writer.rs) puts on the
socket for one frame received from the outbound queue: the 4-byte big-endian
length of the frame's payload, then the payload itself. -/
def write_frame_bytes (payload : List Nat) : List Nat :=
  u32be payload.length ++ payload

/-! ### Apply pipeline (src/common/src/types.rs, src/server/src/state.rs) -/

/-- The engine-side `Operation` from src/common/src/types.rs (`client_id` is
a parsed `Uuid`, modelled by its string form). -/
structure Operation where
  op_id : Nat
  kind : OperationKind
  doc_id : String
  new_content : List Char
  client_id : String
  client_version : Nat
  server_version : Nat
  deriving Repr, DecidableEq

/-- `Operation::convert_operation` from src/common/src/types.rs. -/
def Operation.convert_operation (proto_op : OperationProto) : Option OperationKind :=
  match proto_op.kind with
  | some (.insert insert_op) =>
    some (.insert { index := insert_op.index, text := insert_op.text,
                    client_id := insert_op.client_id,
                    client_version := insert_op.client_version })
  | some (.delete delete_op) =>
    some (.delete { start := delete_op.start, end_ := delete_op.end_,
                    client_id := delete_op.client_id,
                    client_version := delete_op.client_version })
  | some (.replace replace_op) =>
    some (.replace { start := replace_op.start, end_ := replace_op.end_,
                     text := replace_op.text, client_id := replace_op.client_id,
                     client_version := replace_op.client_version })
  | some (.noop noop_op) =>
    some (.noop { client_id := noop_op.client_id,
                  client_version := noop_op.client_version })
  | none => none

/-- Modelled from the spec: `OperationLog::get_ops_in_range` is called in
src/server/src/state.rs but is not defined under src/ (the `OperationLog` in
src/common/src/types.rs has only `new` and `append_log`). §4.3: "`get_range
(lo, hi)` returns the sequence of entries with server-version in `[lo, hi)`
in ascending order", with exactly one entry per version (§4.3 invariant). -/
def get_ops_in_range (logs : List Operation) (lo hi : Nat) : List Operation :=
  (List.range' lo (hi - lo)).filterMap fun v =>
    logs.find? fun o => o.server_version == v

/-- The two `std::io::ErrorKind` values `send_applied_op` produces. -/
inductive IoErrorKind where
  | invalidData
  | other
  deriving Repr, DecidableEq

/-- `ServerState` (src/server/src/state.rs) restricted to the state the apply
pipeline reads and writes: the document and the operation log (the client
registry is transport-side and not mentioned by the claims settled on this
structure). -/
structure ServerState where
  document : Document
  op_log : List Operation
  deriving Repr, DecidableEq

/-- `ServerState::send_applied_op` from src/server/src/state.rs, step by
step: structural checks (empty `doc_id`, unparseable client id, missing op
kind, all `InvalidData`), the future-version check (`InvalidData`), the
rebase fold over `get_ops_in_range` when `client_version < doc.version`,
`Document::apply_op` (failure mapped to `Other`), the log append (stamped
`server_version = new_version - 1`, `new_content` empty), and the
sync-snapshot frame. `Uuid::parse_str` is the external `uuid` crate, passed
in as `parse_uuid`. The Rust method returns `Result<Arc<Frame>, io::Error>`
mutating state behind mutexes; the post-state is returned explicitly, and
every error path leaves it unchanged exactly as the source does (errors
return before mutation; `apply_op` does not mutate on failure). -/
def ServerState.send_applied_op (parse_uuid : String → Option String)
    (st : ServerState) (operation_proto : OperationProto) :
    ServerState × Except IoErrorKind Frame :=
  if operation_proto.doc_id = "" then (st, .error .invalidData)
  else
    match parse_uuid operation_proto.client_id with
    | none => (st, .error .invalidData)
    | some parsed_client_id =>
      match Operation.convert_operation operation_proto with
      | none => (st, .error .invalidData)
      | some op_kind0 =>
        let client_version := operation_proto.client_version
        if st.document.version < client_version then (st, .error .invalidData)
        else
          let op_kind :=
            if client_version < st.document.version then
              (get_ops_in_range st.op_log client_version st.document.version).foldl
                (fun acc past_op => transform acc past_op.kind) op_kind0
            else op_kind0
          match st.document.apply_op op_kind with
          | (_, some _) => (st, .error .other)
          | (doc2, none) =>
            let final_op : Operation :=
              { op_id := operation_proto.op_id, kind := op_kind,
                doc_id := operation_proto.doc_id, new_content := [],
                client_id := parsed_client_id, client_version := client_version,
                server_version := doc2.version - 1 }
            let sync_doc : SyncDocumentProto :=
              { doc_id := operation_proto.doc_id, content := doc2.content,
                version := doc2.version }
            ({ document := doc2, op_log := st.op_log ++ [final_op] },
             .ok { payload := ServerMessage.encode (.SyncDocument sync_doc) })

/-! ### Reader dispatch (src/server/src/reader.rs) -/

/-- What `Reader::run_reader_loop` does with one decoded frame. The source's
match has arms only for `Ok(Operation)` (apply + broadcast), `Ok(SyncDocument)`
(empty arm) and `Err` (log and continue); there is no `Ok(Ping)` or
`Ok(Pong)` arm, and nothing in the reader calls `ServerState::touch_client`,
so those messages fall through with no effect. `touchClient` exists in the
action type only so the spec's expected behaviour is expressible. -/
inductive ReaderAction where
  | applyAndBroadcast (op : OperationProto)
  | ignore
  | logDecodeError
  | touchClient
  deriving Repr, DecidableEq

/-- The per-frame dispatch of `Reader::run_reader_loop`. -/
def run_reader_loop_dispatch : Except String ServerMessage → ReaderAction
  | .ok (.Operation op_proto) => .applyAndBroadcast op_proto
  | .ok (.SyncDocument _) => .ignore
  | .ok (.Ping _) => .ignore
  | .ok (.Pong _) => .ignore
  | .error _ => .logDecodeError

/-! ### Machine-width bounds for byte-level roundtrips -/

/-- The Rust payload widths of an operation's fields: u32 indices, u64
versions, strings of u32 length. -/
def OperationKind.wf : OperationKind → Bool
  | .insert o => o.index < 4294967296 ∧ o.text.length < 4294967296 ∧
      o.client_id.data.length < 4294967296 ∧ o.client_version < 18446744073709551616
  | .delete o => o.start < 4294967296 ∧ o.end_ < 4294967296 ∧
      o.client_id.data.length < 4294967296 ∧ o.client_version < 18446744073709551616
  | .replace o => o.start < 4294967296 ∧ o.end_ < 4294967296 ∧
      o.text.length < 4294967296 ∧ o.client_id.data.length < 4294967296 ∧
      o.client_version < 18446744073709551616
  | .noop o => o.client_id.data.length < 4294967296 ∧
      o.client_version < 18446744073709551616

/-- Width bounds for an optional `oneof kind`. -/
def wfKindOpt : Option OperationKind → Bool
  | none => true
  | some k => k.wf

/-- Width bounds for `OperationProto` fields. -/
def OperationProto.wf (p : OperationProto) : Bool :=
  p.op_id < 18446744073709551616 ∧ p.doc_id.data.length < 4294967296 ∧
  p.client_id.data.length < 4294967296 ∧ p.client_version < 18446744073709551616 ∧
  p.new_content.length < 4294967296 ∧ wfKindOpt p.kind = true

/-- Width bounds for `SyncDocumentProto` fields. -/
def SyncDocumentProto.wf (p : SyncDocumentProto) : Bool :=
  p.doc_id.data.length < 4294967296 ∧ p.content.length < 4294967296 ∧
  p.version < 18446744073709551616

/-- Width bounds for a whole `ServerMessage`. -/
def ServerMessage.wf : ServerMessage → Bool
  | .Operation p => p.wf
  | .SyncDocument p => p.wf
  | .Ping seq => seq < 18446744073709551616
  | .Pong seq => seq < 18446744073709551616

/-- The scenario's operation A, `Replace(2,6,"ZZ")` by client "A" at version 1. -/
def c2A : OperationKind := .replace ⟨2, 6, "ZZ".data, "A", 1⟩

/-- The scenario's operation B, `Delete(1,7)` by client "B" at version 1. -/
def c2B : OperationKind := .delete ⟨1, 7, "B", 1⟩

/-- The scenario's initial content `"abcdefgh"`. -/
def c2D : List Char := "abcdefgh".data

example : applyContent "ab".data (.insert ⟨1, "X".data, "A", 1⟩) = some "aXb".data := by decide

example :
    transform (.delete ⟨0, 2, "B", 1⟩) (.insert ⟨1, "X".data, "A", 1⟩) =
      .delete ⟨0, 3, "B", 1⟩ := by decide

example : otPath "ab".data (.insert ⟨1, "X".data, "A", 1⟩) (.delete ⟨0, 2, "B", 1⟩)
    = some [] := by decide

example : otPath "ab".data (.delete ⟨0, 2, "B", 1⟩) (.insert ⟨1, "X".data, "A", 1⟩)
    = some "X".data := by decide

/-! ### Claim C4: `Document::apply_op` is a guarded total update -/

/-- C4: `apply_op` rejects exactly on the claim's guard conditions (Insert
with `index > len`, Delete/Replace with `end > len` or `start > end`);
otherwise it performs the edit (Noop editing nothing) and increments the
version by exactly 1; on rejection the document is returned unchanged. -/
theorem apply_op_guarded_total (d : Document) (op : OperationKind) :
    Document.apply_op d op =
      if applyRejects op d.content.length then
        (d, some (guardError op))
      else
        ({ content := editedContent d.content op, version := d.version + 1 }, none) := by
  cases op <;>
    simp [Document.apply_op, applyRejects, editedContent, guardError]

/-! ### Claim C7: Noop is an identity for `transform` on both sides -/

/-- C7: transforming any operation against a prior Noop returns it unchanged
(all fields), and transforming a Noop against any prior operation returns a
Noop carrying the incoming Noop's `client_id` and `client_version`. -/
theorem transform_noop_identity :
    (∀ (a : OperationKind) (n : NoopOp), transform a (.noop n) = a) ∧
    (∀ (n : NoopOp) (p : OperationKind), transform (.noop n) p = .noop n) := by
  constructor
  · intro a n; cases a <;> rfl
  · intro n p; rfl

/-! ### Claim C6: Replace collapse preserves the replacement text -/

/-- C6: transforming `Replace(s,e,t)` against a prior Delete (endpoints mapped
through the deletion) or a prior Replace (endpoints mapped through the
deletion then the insertion) yields `Insert(p, t)` when the mapped range
collapses to the point `p`, with `t` identical to the original replacement
text, and otherwise the Replace with mapped endpoints and the same `t`. -/
theorem transform_replace_collapse :
    (∀ (op : ReplaceOp) (prev : DeleteOp),
      transform (.replace op) (.delete prev) =
        (let p := map_index_after_deletion op.start prev.start prev.end_
         let q := map_index_after_deletion op.end_ prev.start prev.end_
         if p = q then
           .insert { index := p, text := op.text,
                     client_id := op.client_id, client_version := op.client_version }
         else
           .replace { op with start := p, end_ := q })) ∧
    (∀ (op : ReplaceOp) (prev : ReplaceOp),
      transform (.replace op) (.replace prev) =
        (let p := map_index_after_insertion
            (map_index_after_deletion op.start prev.start prev.end_) prev.start prev.text.length
         let q := map_index_after_insertion
            (map_index_after_deletion op.end_ prev.start prev.end_) prev.start prev.text.length
         if p = q then
           .insert { index := p, text := op.text,
                     client_id := op.client_id, client_version := op.client_version }
         else
           .replace { op with start := p, end_ := q })) := by
  exact ⟨fun op prev => rfl, fun op prev => rfl⟩

/-! ### Claim C2: the "Replace collapse" concrete scenario -/

/-- C2 counterexample: rebasing B past A does **not** give `Delete(1,3)` (the
Delete-vs-Replace arm also expands the range over the replacement's inserted
text, giving `Delete(1,5)`), and the two application orders do **not** agree. -/
theorem c2_replace_collapse_counterexample :
    transform c2B c2A ≠ .delete ⟨1, 3, "B", 1⟩ ∧
    otPath c2D c2A c2B ≠ otPath c2D c2B c2A := by decide

/-- C2 amended: from `"abcdefgh"` with A = `Replace(2,6,"ZZ")` and
B = `Delete(1,7)`, rebasing B past A gives `Delete(1,5)` and the A-first
order ends at `"ah"`; rebasing A past B gives `Insert(1,"ZZ")` and the
B-first order ends at `"aZZh"`; the two final contents differ. -/
theorem c2_replace_collapse_actual :
    transform c2B c2A = .delete ⟨1, 5, "B", 1⟩ ∧
    transform c2A c2B = .insert ⟨1, "ZZ".data, "A", 1⟩ ∧
    otPath c2D c2A c2B = some "ah".data ∧
    otPath c2D c2B c2A = some "aZZh".data := by decide

/-! ### Claim C1: TP1 convergence -/

theorem insAt_length {i : Nat} {l : List Char} (t : List Char) (h : i ≤ l.length) :
    (insAt i t l).length = t.length + l.length := by
  simp [insAt, List.length_take, List.length_drop]; omega

theorem delR_length {s e : Nat} {l : List Char} (h1 : s ≤ e) (h2 : e ≤ l.length) :
    (delR s e l).length = l.length - (e - s) := by
  simp [delR, List.length_take, List.length_drop]; omega

theorem delR_self (s : Nat) (l : List Char) : delR s s l = l := by
  simp [delR, List.take_append_drop]

theorem applyContent_insert {l : List Char} (o : InsertOp) (h : o.index ≤ l.length) :
    applyContent l (.insert o) = some (insAt o.index o.text l) := by
  simp [applyContent, Document.apply_op, insAt, Nat.not_lt.mpr h]

theorem applyContent_delete {l : List Char} (o : DeleteOp)
    (h1 : o.start ≤ o.end_) (h2 : o.end_ ≤ l.length) :
    applyContent l (.delete o) = some (delR o.start o.end_ l) := by
  have : ¬ (l.length < o.end_ ∨ o.end_ < o.start) := by omega
  simp [applyContent, Document.apply_op, delR, this]

theorem applyContent_noop (l : List Char) (n : NoopOp) :
    applyContent l (.noop n) = some l := rfl

theorem map_index_after_deletion_mono {i j ds de : Nat} (h : i ≤ j) :
    map_index_after_deletion i ds de ≤ map_index_after_deletion j ds de := by
  unfold map_index_after_deletion; split_ifs <;> omega

theorem map_index_after_deletion_le {i ds de n : Nat}
    (hi : i ≤ n) (h1 : ds ≤ de) (h2 : de ≤ n) :
    map_index_after_deletion i ds de ≤ n - (de - ds) := by
  unfold map_index_after_deletion; split_ifs <;> omega

/-- Two inserts commute once the later index is shifted by the earlier text. -/
theorem insAt_insAt (l : List Char) (i1 i2 : Nat) (t1 t2 : List Char)
    (h12 : i1 ≤ i2) (h2 : i2 ≤ l.length) :
    insAt (i2 + t1.length) t2 (insAt i1 t1 l) = insAt i1 t1 (insAt i2 t2 l) := by
  have h1 : i1 ≤ l.length := le_trans h12 h2
  unfold insAt
  simp only [List.take_append_eq_append_take, List.drop_append_eq_append_drop,
    List.take_take, List.drop_take, List.drop_drop, List.length_take, List.length_append,
    List.length_drop, List.append_assoc]
  rw [show (i2 + t1.length) ⊓ i1 = i1 by omega,
      show i1 ⊓ l.length = i1 by omega,
      show i1 ⊓ i2 = i1 by omega,
      show i2 ⊓ l.length = i2 by omega,
      show i1 - (i2 + t1.length) = 0 by omega,
      show i1 - i2 = 0 by omega,
      List.take_of_length_le (show t1.length ≤ i2 + t1.length - i1 by omega),
      List.drop_of_length_le (show t1.length ≤ i2 + t1.length - i1 by omega),
      show i2 + t1.length - i1 - t1.length = i2 - i1 by omega,
      show i1 + (i2 - i1) = i2 by omega]
  simp

/-- Deleting a left range then a (mapped) disjoint right range commutes. -/
theorem delR_disjoint (l : List Char) (sL eL sR eR : Nat)
    (h1 : sL ≤ eL) (h2 : eL ≤ sR) (h3 : sR ≤ eR) (h4 : eR ≤ l.length) :
    delR sL eL (delR sR eR l) =
      delR (sR - (eL - sL)) (eR - (eL - sL)) (delR sL eL l) := by
  unfold delR
  simp only [List.take_append_eq_append_take, List.drop_append_eq_append_drop,
    List.take_take, List.drop_take, List.drop_drop, List.length_take, List.length_append,
    List.length_drop, List.append_assoc]
  rw [show sL ⊓ sR = sL by omega,
      show sL - sR ⊓ l.length = 0 by omega,
      show eL - sR ⊓ l.length = 0 by omega,
      show (sR - (eL - sL)) ⊓ sL = sL by omega,
      show sR - (eL - sL) - sL ⊓ l.length = sR - eL by omega,
      show sL - (eR - (eL - sL)) = 0 by omega,
      show eR - (eL - sL) - sL ⊓ l.length = eR - eL by omega,
      show eL + (eR - eL) = eR by omega]
  simp

/-- Overlapping deletes: first interval starts first, second ends last. -/
theorem delR_overlap (l : List Char) (s1 e1 s2 e2 : Nat)
    (h1 : s1 ≤ s2) (h2 : s2 ≤ e1) (h3 : e1 ≤ e2) (h4 : e2 ≤ l.length) :
    delR s1 (e2 - (e1 - s1)) (delR s1 e1 l) = delR s1 s2 (delR s2 e2 l) := by
  unfold delR
  simp only [List.take_append_eq_append_take, List.drop_append_eq_append_drop,
    List.take_take, List.drop_take, List.drop_drop, List.length_take, List.length_append,
    List.length_drop, List.append_assoc]
  rw [show s1 ⊓ s1 = s1 by omega,
      show s1 - s1 ⊓ l.length = 0 by omega,
      show s1 ⊓ s2 = s1 by omega,
      show s1 - s2 ⊓ l.length = 0 by omega,
      show e2 - (e1 - s1) - s1 ⊓ l.length = e2 - e1 by omega,
      show s1 - (e2 - (e1 - s1)) = 0 by omega,
      show e1 + (e2 - e1) = e2 by omega,
      show s2 - s2 ⊓ l.length = 0 by omega]
  simp

/-- A delete nested inside an already-deleted range is a no-op on the result. -/
theorem delR_nested (l : List Char) (s1 e1 s2 e2 : Nat)
    (h1 : s1 ≤ s2) (h2 : s2 ≤ e2) (h3 : e2 ≤ e1) (h4 : e1 ≤ l.length) :
    delR s1 s1 (delR s1 e1 l) = delR s1 (e1 - (e2 - s2)) (delR s2 e2 l) := by
  unfold delR
  simp only [List.take_append_eq_append_take, List.drop_append_eq_append_drop,
    List.take_take, List.drop_take, List.drop_drop, List.length_take, List.length_append,
    List.length_drop, List.append_assoc]
  rw [show s1 ⊓ s1 = s1 by omega,
      show s1 - s1 ⊓ l.length = 0 by omega,
      show s1 ⊓ s2 = s1 by omega,
      show s1 - s2 ⊓ l.length = 0 by omega,
      show e1 - (e2 - s2) - s2 ⊓ l.length = e1 - e2 by omega,
      show s2 - (e1 - (e2 - s2)) = 0 by omega,
      show e2 + (e1 - e2) = e1 by omega]
  simp

/-- Deleting two valid ranges in either order (each mapped through the other
by `map_index_after_deletion`) removes the same characters. -/
theorem del_del_union (l : List Char) (s1 e1 s2 e2 : Nat)
    (ha1 : s1 ≤ e1) (ha2 : e1 ≤ l.length) (hb1 : s2 ≤ e2) (hb2 : e2 ≤ l.length) :
    delR (map_index_after_deletion s2 s1 e1) (map_index_after_deletion e2 s1 e1)
        (delR s1 e1 l) =
      delR (map_index_after_deletion s1 s2 e2) (map_index_after_deletion e1 s2 e2)
        (delR s2 e2 l) := by
  rcases le_or_lt e2 s1 with hc | hc
  · rw [show map_index_after_deletion s2 s1 e1 = s2 by
        unfold map_index_after_deletion; split_ifs <;> omega,
        show map_index_after_deletion e2 s1 e1 = e2 by
        unfold map_index_after_deletion; split_ifs <;> omega,
        show map_index_after_deletion s1 s2 e2 = s1 - (e2 - s2) by
        unfold map_index_after_deletion; split_ifs <;> omega,
        show map_index_after_deletion e1 s2 e2 = e1 - (e2 - s2) by
        unfold map_index_after_deletion; split_ifs <;> omega]
    exact delR_disjoint l s2 e2 s1 e1 hb1 hc ha1 ha2
  · rcases le_or_lt e1 s2 with hd | hd
    · rw [show map_index_after_deletion s2 s1 e1 = s2 - (e1 - s1) by
          unfold map_index_after_deletion; split_ifs <;> omega,
          show map_index_after_deletion e2 s1 e1 = e2 - (e1 - s1) by
          unfold map_index_after_deletion; split_ifs <;> omega,
          show map_index_after_deletion s1 s2 e2 = s1 by
          unfold map_index_after_deletion; split_ifs <;> omega,
          show map_index_after_deletion e1 s2 e2 = e1 by
          unfold map_index_after_deletion; split_ifs <;> omega]
      exact (delR_disjoint l s1 e1 s2 e2 ha1 hd hb1 hb2).symm
    · rcases le_total s1 s2 with hs | hs
      · rcases le_total e1 e2 with he | he
        · rw [show map_index_after_deletion s2 s1 e1 = s1 by
              unfold map_index_after_deletion; split_ifs <;> omega,
              show map_index_after_deletion e2 s1 e1 = e2 - (e1 - s1) by
              unfold map_index_after_deletion; split_ifs <;> omega,
              show map_index_after_deletion s1 s2 e2 = s1 by
              unfold map_index_after_deletion; split_ifs <;> omega,
              show map_index_after_deletion e1 s2 e2 = s2 by
              unfold map_index_after_deletion; split_ifs <;> omega]
          exact delR_overlap l s1 e1 s2 e2 hs (by omega) he hb2
        · rw [show map_index_after_deletion s2 s1 e1 = s1 by
              unfold map_index_after_deletion; split_ifs <;> omega,
              show map_index_after_deletion e2 s1 e1 = s1 by
              unfold map_index_after_deletion; split_ifs <;> omega,
              show map_index_after_deletion s1 s2 e2 = s1 by
              unfold map_index_after_deletion; split_ifs <;> omega,
              show map_index_after_deletion e1 s2 e2 = e1 - (e2 - s2) by
              unfold map_index_after_deletion; split_ifs <;> omega]
          exact delR_nested l s1 e1 s2 e2 hs hb1 he ha2
      · rcases le_total e1 e2 with he | he
        · rw [show map_index_after_deletion s2 s1 e1 = s2 by
              unfold map_index_after_deletion; split_ifs <;> omega,
              show map_index_after_deletion e2 s1 e1 = e2 - (e1 - s1) by
              unfold map_index_after_deletion; split_ifs <;> omega,
              show map_index_after_deletion s1 s2 e2 = s2 by
              unfold map_index_after_deletion; split_ifs <;> omega,
              show map_index_after_deletion e1 s2 e2 = s2 by
              unfold map_index_after_deletion; split_ifs <;> omega]
          exact (delR_nested l s2 e2 s1 e1 hs ha1 he hb2).symm
        · rw [show map_index_after_deletion s2 s1 e1 = s2 by
              unfold map_index_after_deletion; split_ifs <;> omega,
              show map_index_after_deletion e2 s1 e1 = s1 by
              unfold map_index_after_deletion; split_ifs <;> omega,
              show map_index_after_deletion s1 s2 e2 = s2 by
              unfold map_index_after_deletion; split_ifs <;> omega,
              show map_index_after_deletion e1 s2 e2 = e1 - (e2 - s2) by
              unfold map_index_after_deletion; split_ifs <;> omega]
          exact (delR_overlap l s2 e2 s1 e1 hs (by omega) he ha2).symm

/-- Applying the rebased form of delete `ob` after delete `oa` always deletes
the mapped range (the collapsed-to-Noop case coincides with the empty-range
delete). -/
theorem applyContent_transform_delete_delete (D : List Char) (oa ob : DeleteOp)
    (ha1 : oa.start ≤ oa.end_) (ha2 : oa.end_ ≤ D.length)
    (hb1 : ob.start ≤ ob.end_) (hb2 : ob.end_ ≤ D.length) :
    applyContent (delR oa.start oa.end_ D) (transform (.delete ob) (.delete oa)) =
      some (delR (map_index_after_deletion ob.start oa.start oa.end_)
                 (map_index_after_deletion ob.end_ oa.start oa.end_)
                 (delR oa.start oa.end_ D)) := by
  simp only [transform]
  by_cases hc : map_index_after_deletion ob.start oa.start oa.end_ =
      map_index_after_deletion ob.end_ oa.start oa.end_
  · rw [if_pos hc, hc, delR_self, applyContent_noop]
  · rw [if_neg hc]
    exact applyContent_delete _
      (map_index_after_deletion_mono hb1)
      (by rw [delR_length ha1 ha2]; exact map_index_after_deletion_le hb2 ha1 ha2)

/-- C1 counterexample: on `"ab"`, the valid pair a = `Insert(1,"X")`,
b = `Delete(0,2)` breaks TP1: a-first ends at `""` (the rebased delete
swallows the insertion) while b-first ends at `"X"` (the rebased insert
survives at the deletion's left edge). -/
theorem tp1_counterexample :
    validAt "ab".data (.insert ⟨1, "X".data, "A", 1⟩) = true ∧
    validAt "ab".data (.delete ⟨0, 2, "B", 1⟩) = true ∧
    otPath "ab".data (.insert ⟨1, "X".data, "A", 1⟩) (.delete ⟨0, 2, "B", 1⟩) ≠
      otPath "ab".data (.delete ⟨0, 2, "B", 1⟩) (.insert ⟨1, "X".data, "A", 1⟩) := by
  decide

/-- C1 amended: TP1 convergence does hold for the homogeneous pairs — two
Inserts from distinct clients, or two Deletes — valid at `D`: applying `a`
then `transform(b, a)` and applying `b` then `transform(a, b)` end in the
same content. (The mixed pairs fail, see the counterexample.) -/
theorem tp1_convergence_homogeneous (D : List Char) (a b : OperationKind)
    (hva : validAt D a = true) (hvb : validAt D b = true)
    (hcase : (∃ oa ob, a = .insert oa ∧ b = .insert ob ∧ oa.client_id ≠ ob.client_id) ∨
             (∃ oa ob, a = .delete oa ∧ b = .delete ob)) :
    otPath D a b = otPath D b a := by
  rcases hcase with ⟨oa, ob, rfl, rfl, hne⟩ | ⟨oa, ob, rfl, rfl⟩
  · simp only [validAt, decide_eq_true_eq] at hva hvb
    unfold otPath
    rw [applyContent_insert oa hva, applyContent_insert ob hvb]
    simp only [Option.some_bind]
    rcases Nat.lt_trichotomy oa.index ob.index with h | h | h
    · rw [show transform (.insert ob) (.insert oa) =
            .insert { ob with index := ob.index + oa.text.length } by
          simp only [transform]; rw [if_pos (Or.inl h)],
          show transform (.insert oa) (.insert ob) = .insert oa by
          simp only [transform]; rw [if_neg]
          rintro (h1 | ⟨h1, _⟩) <;> omega]
      rw [applyContent_insert _ (by simp [insAt_length _ hva]; omega),
          applyContent_insert _ (by simp [insAt_length _ hvb]; omega)]
      exact congrArg some (insAt_insAt D oa.index ob.index oa.text ob.text (le_of_lt h) hvb)
    · rcases lt_or_gt_of_ne hne with hcid | hcid
      · rw [show transform (.insert ob) (.insert oa) =
              .insert { ob with index := ob.index + oa.text.length } by
            simp only [transform]; rw [if_pos (Or.inr ⟨h, hcid⟩)],
            show transform (.insert oa) (.insert ob) = .insert oa by
            simp only [transform]; rw [if_neg]
            rintro (h1 | ⟨h1, h2⟩)
            · omega
            · exact absurd h2 (asymm hcid)]
        rw [applyContent_insert _ (by simp [insAt_length _ hva]; omega),
            applyContent_insert _ (by simp [insAt_length _ hvb]; omega)]
        exact congrArg some (insAt_insAt D oa.index ob.index oa.text ob.text (le_of_eq h) hvb)
      · rw [show transform (.insert ob) (.insert oa) = .insert ob by
            simp only [transform]; rw [if_neg]
            rintro (h1 | ⟨h1, h2⟩)
            · omega
            · exact absurd h2 (asymm hcid),
            show transform (.insert oa) (.insert ob) =
              .insert { oa with index := oa.index + ob.text.length } by
            simp only [transform]; rw [if_pos (Or.inr ⟨h.symm, hcid⟩)]]
        rw [applyContent_insert _ (by simp [insAt_length _ hva]; omega),
            applyContent_insert _ (by simp [insAt_length _ hvb]; omega)]
        exact congrArg some
          (insAt_insAt D ob.index oa.index ob.text oa.text (le_of_eq h.symm) hva).symm
    · rw [show transform (.insert ob) (.insert oa) = .insert ob by
          simp only [transform]; rw [if_neg]
          rintro (h1 | ⟨h1, _⟩) <;> omega,
          show transform (.insert oa) (.insert ob) =
            .insert { oa with index := oa.index + ob.text.length } by
          simp only [transform]; rw [if_pos (Or.inl h)]]
      rw [applyContent_insert _ (by simp [insAt_length _ hva]; omega),
          applyContent_insert _ (by simp [insAt_length _ hvb]; omega)]
      exact congrArg some
        (insAt_insAt D ob.index oa.index ob.text oa.text (le_of_lt h) hva).symm
  · simp only [validAt, decide_eq_true_eq] at hva hvb
    unfold otPath
    rw [applyContent_delete oa hva.1 hva.2, applyContent_delete ob hvb.1 hvb.2]
    simp only [Option.some_bind]
    rw [applyContent_transform_delete_delete D oa ob hva.1 hva.2 hvb.1 hvb.2,
        applyContent_transform_delete_delete D ob oa hvb.1 hvb.2 hva.1 hva.2]
    exact congrArg some
      (del_del_union D oa.start oa.end_ ob.start ob.end_ hva.1 hva.2 hvb.1 hvb.2)

/-- Witness for the amended TP1 theorem at a concrete homogeneous pair. -/
theorem tp1_convergence_homogeneous_witness :
    otPath "hello".data (.insert ⟨2, "X".data, "A", 1⟩) (.insert ⟨2, "Y".data, "B", 1⟩) =
      otPath "hello".data (.insert ⟨2, "Y".data, "B", 1⟩) (.insert ⟨2, "X".data, "A", 1⟩) :=
  tp1_convergence_homogeneous "hello".data _ _ (by decide) (by decide)
    (Or.inl ⟨_, _, rfl, rfl, by decide⟩)

/-! ### Claim C5: future versions are rejected without any effect -/

/-- C5: when the incoming operation's `client_version` exceeds the current
document version, `send_applied_op` returns an `InvalidData` error and the
state is exactly the input state: document content and version unchanged, no
log entry appended — and no frame is produced, so nothing can be broadcast. -/
theorem send_applied_op_future_version_rejected
    (parse_uuid : String → Option String) (st : ServerState) (p : OperationProto)
    (h : st.document.version < p.client_version) :
    ServerState.send_applied_op parse_uuid st p = (st, .error .invalidData) := by
  unfold ServerState.send_applied_op
  split
  · rfl
  · split
    · rfl
    · split
      · rfl
      · rw [if_pos h]

/-- Witness for C5 at the spec's concrete scenario 4: document version 3,
incoming `client_version = 5`. -/
theorem send_applied_op_future_version_rejected_witness :
    ServerState.send_applied_op (fun s => some s)
        { document := { content := "abc".data, version := 3 }, op_log := [] }
        { op_id := 0, doc_id := "d", client_id := "c", client_version := 5,
          new_content := [], kind := some (.noop ⟨"c", 5⟩) } =
      ({ document := { content := "abc".data, version := 3 }, op_log := [] },
       .error .invalidData) :=
  send_applied_op_future_version_rejected _ _ _ (by decide)

/-! ### Claim C3: stale operations are rebased through the log -/

/-- C3: for an operation with `client_version` strictly below the document
version that passes the structural checks, `send_applied_op` rebases it by
folding `transform` over `get_ops_in_range client_version doc.version`
(ascending server versions) before applying, applies exactly the folded
operation, and logs it. -/
theorem send_applied_op_rebases_stale
    (parse_uuid : String → Option String) (st : ServerState) (p : OperationProto)
    (u : String) (k rb : OperationKind) (doc2 : Document)
    (h1 : p.doc_id ≠ "")
    (h2 : parse_uuid p.client_id = some u)
    (h3 : Operation.convert_operation p = some k)
    (h4 : p.client_version < st.document.version)
    (hrb : rb = (get_ops_in_range st.op_log p.client_version st.document.version).foldl
      (fun acc past_op => transform acc past_op.kind) k)
    (h5 : st.document.apply_op rb = (doc2, none)) :
    ServerState.send_applied_op parse_uuid st p =
      ({ document := doc2,
         op_log := st.op_log ++
           [{ op_id := p.op_id, kind := rb, doc_id := p.doc_id, new_content := [],
              client_id := u, client_version := p.client_version,
              server_version := doc2.version - 1 }] },
       .ok { payload := ServerMessage.encode (.SyncDocument
         { doc_id := p.doc_id, content := doc2.content, version := doc2.version }) }) := by
  unfold ServerState.send_applied_op
  rw [if_neg h1, h2, h3]
  dsimp only
  rw [if_neg (by omega : ¬ st.document.version < p.client_version), if_pos h4, ← hrb, h5]

/-- Witness for C3: document at version 2 with two logged operations; an
operation authored at version 0 is rebased through both and applied. -/
theorem send_applied_op_rebases_stale_witness :
    ServerState.send_applied_op (fun s => some s)
        { document := { content := "abQ".data, version := 2 },
          op_log :=
            [{ op_id := 10, kind := .noop ⟨"n", 0⟩, doc_id := "d", new_content := [],
               client_id := "x", client_version := 0, server_version := 0 },
             { op_id := 11, kind := .insert ⟨2, "Q".data, "x", 1⟩, doc_id := "d",
               new_content := [], client_id := "x", client_version := 1,
               server_version := 1 }] }
        { op_id := 12, doc_id := "d", client_id := "y", client_version := 0,
          new_content := [], kind := some (.insert ⟨0, "Z".data, "y", 0⟩) } =
      ({ document := { content := "ZabQ".data, version := 3 },
         op_log :=
           [{ op_id := 10, kind := .noop ⟨"n", 0⟩, doc_id := "d", new_content := [],
              client_id := "x", client_version := 0, server_version := 0 },
            { op_id := 11, kind := .insert ⟨2, "Q".data, "x", 1⟩, doc_id := "d",
              new_content := [], client_id := "x", client_version := 1,
              server_version := 1 },
            { op_id := 12, kind := .insert ⟨0, "Z".data, "y", 0⟩, doc_id := "d",
              new_content := [], client_id := "y", client_version := 0,
              server_version := 2 }] },
       .ok { payload := ServerMessage.encode (.SyncDocument
         { doc_id := "d", content := "ZabQ".data, version := 3 }) }) :=
  send_applied_op_rebases_stale _ _ _ "y" (.insert ⟨0, "Z".data, "y", 0⟩)
    (.insert ⟨0, "Z".data, "y", 0⟩) _ (by decide) rfl (by decide) (by decide)
    (by decide) (by decide)

/-! ### Claim C9: Pong frames and the activity timestamp -/

/-- C9 (code bug): the reader's dispatch does nothing for a decoded Pong (the
source match has no `Ok(Pong)` arm and never calls
`ServerState::touch_client`), and no decoded frame whatsoever leads to a
touch of the client's last-activity timestamp. -/
theorem run_reader_loop_pong_no_touch :
    run_reader_loop_dispatch (.ok (.Pong 7)) = .ignore ∧
    ∀ r, run_reader_loop_dispatch r ≠ .touchClient := by
  refine ⟨rfl, ?_⟩
  intro r
  cases r with
  | error e => simp [run_reader_loop_dispatch]
  | ok m => cases m <;> simp [run_reader_loop_dispatch]

/-! ### Claim C8: bytes the writer puts on the wire -/

/-- C8 counterexample: for the frame carrying `Ping(0)`, the first byte of
the written payload (wire offset 4, right after the writer's length) is a
length byte of the inner envelope, not the type id 3. -/
theorem wire_first_byte_counterexample :
    ((write_frame_bytes (ServerMessage.encode (.Ping 0))).drop 4).head? ≠
      some (ServerMessage.get_message_type_id (.Ping 0)) := by decide

/-- C8 amended: every frame the writer emits is `[u32 BE length][payload]`
with the length exactly the payload's byte count — but the payload is itself
a whole envelope buffer as built by `encode`: an inner u32 length
(`body length + 1`), then the type id byte, then the body. The type id is
therefore at payload offset 4, not offset 0. -/
theorem wire_framing_actual (m : ServerMessage) :
    write_frame_bytes (ServerMessage.encode m) =
      u32be (4 + (m.payload_parts.2.length + 1)) ++
        (u32be (m.payload_parts.2.length + 1) ++
          m.get_message_type_id :: m.payload_parts.2) := by
  have htid : m.payload_parts.1 = m.get_message_type_id := by
    cases m <;> rfl
  have hlen : (ServerMessage.encode m).length = 4 + (m.payload_parts.2.length + 1) := by
    simp [ServerMessage.encode, u32be]
    omega
  unfold write_frame_bytes
  rw [hlen]
  unfold ServerMessage.encode
  rw [htid]

/-! ### Claim C10: the envelope round-trips -/

theorem beU64_u64be (n : Nat) (h : n < 18446744073709551616) : beU64 (u64be n) = n := by
  simp [beU64, u64be]
  omega

theorem decU64_append (n : Nat) (rest : List Nat) (h : n < 18446744073709551616) :
    decU64 (u64be n ++ rest) = some (n, rest) := by
  simp [decU64, u64be]
  omega

theorem length_encChars (s : List Char) : (encChars s).length = 4 * s.length := by
  induction s with
  | nil => rfl
  | cons c cs ih => simp [encChars, u32be, ih]; omega

theorem decChars_encChars (s : List Char) : decChars (encChars s) = s := by
  induction s with
  | nil => rfl
  | cons c cs ih =>
    have hc : c.toNat < 4294967296 := by
      have := c.val.toNat_lt
      simpa [Char.toNat] using this
    simp only [encChars, u32be, List.cons_append, List.nil_append, decChars, ih]
    rw [show ((c.toNat / 16777216 % 256 * 256 + c.toNat / 65536 % 256) * 256 +
        c.toNat / 256 % 256) * 256 + c.toNat % 256 = c.toNat by omega,
      Char.ofNat_toNat]
    simp [ih]

theorem decStr_encStr (s : List Char) (rest : List Nat) (h : s.length < 4294967296) :
    decStr (encStr s ++ rest) = some (s, rest) := by
  simp only [encStr, u32be, List.cons_append, List.nil_append, List.append_assoc, decStr]
  rw [show ((s.length / 16777216 % 256 * 256 + s.length / 65536 % 256) * 256 +
      s.length / 256 % 256) * 256 + s.length % 256 = s.length by omega]
  rw [if_pos (by simp [List.length_append, length_encChars])]
  rw [List.take_append_of_le_length (by simp [length_encChars]),
      List.drop_append_of_le_length (by simp [length_encChars])]
  rw [List.take_of_length_le (by simp [length_encChars]),
      List.drop_of_length_le (by simp [length_encChars])]
  simp [decChars_encChars]

theorem decStrS_encStrS (s : String) (rest : List Nat) (h : s.data.length < 4294967296) :
    decStrS (encStrS s ++ rest) = some (s, rest) := by
  simp [decStrS, encStrS, decStr_encStr s.data rest h]

theorem decodeKind_encodeKind (k : Option OperationKind) (rest : List Nat)
    (h : wfKindOpt k = true) :
    decodeKind (encodeKind k ++ rest) = some (k, rest) := by
  cases k with
  | none => simp [encodeKind, decodeKind]
  | some kk =>
    cases kk with
    | insert o =>
      simp only [wfKindOpt, OperationKind.wf, decide_eq_true_eq] at h
      obtain ⟨h1, h2, h3, h4⟩ := h
      have h1u : o.index < 18446744073709551616 := by omega
      simp only [encodeKind, List.cons_append, List.append_assoc]
      simp [decodeKind, decU64_append _ _ h1u, decStr_encStr _ _ h2,
        decStrS_encStrS _ _ h3, decU64_append _ _ h4]
    | delete o =>
      simp only [wfKindOpt, OperationKind.wf, decide_eq_true_eq] at h
      obtain ⟨h1, h2, h3, h4⟩ := h
      have h1u : o.start < 18446744073709551616 := by omega
      have h2u : o.end_ < 18446744073709551616 := by omega
      simp only [encodeKind, List.cons_append, List.append_assoc]
      simp [decodeKind, decU64_append _ _ h1u, decU64_append _ _ h2u,
        decStrS_encStrS _ _ h3, decU64_append _ _ h4]
    | replace o =>
      simp only [wfKindOpt, OperationKind.wf, decide_eq_true_eq] at h
      obtain ⟨h1, h2, h3, h4, h5⟩ := h
      have h1u : o.start < 18446744073709551616 := by omega
      have h2u : o.end_ < 18446744073709551616 := by omega
      simp only [encodeKind, List.cons_append, List.append_assoc]
      simp [decodeKind, decU64_append _ _ h1u, decU64_append _ _ h2u,
        decStr_encStr _ _ h3, decStrS_encStrS _ _ h4, decU64_append _ _ h5]
    | noop o =>
      simp only [wfKindOpt, OperationKind.wf, decide_eq_true_eq] at h
      obtain ⟨h1, h2⟩ := h
      simp only [encodeKind, List.cons_append, List.append_assoc]
      simp [decodeKind, decStrS_encStrS _ _ h1, decU64_append _ _ h2]

theorem decodeOperationProto_roundtrip (p : OperationProto) (h : p.wf = true) :
    decodeOperationProto (encodeOperationProto p) = some p := by
  simp only [OperationProto.wf, decide_eq_true_eq] at h
  obtain ⟨hop, hdoc, hcid, hcv, hnc, hk⟩ := h
  have hkind := decodeKind_encodeKind p.kind [] hk
  rw [List.append_nil] at hkind
  simp only [encodeOperationProto, List.append_assoc]
  simp [decodeOperationProto, decU64_append _ _ hop, decStrS_encStrS _ _ hdoc,
    decStrS_encStrS _ _ hcid, decU64_append _ _ hcv, decStr_encStr _ _ hnc, hkind]

theorem decodeSyncDocumentProto_roundtrip (p : SyncDocumentProto) (h : p.wf = true) :
    decodeSyncDocumentProto (encodeSyncDocumentProto p) = some p := by
  simp only [SyncDocumentProto.wf, decide_eq_true_eq] at h
  obtain ⟨hdoc, hc, hv⟩ := h
  have hver := decU64_append p.version [] hv
  rw [List.append_nil] at hver
  simp only [encodeSyncDocumentProto, List.append_assoc]
  simp [decodeSyncDocumentProto, decStrS_encStrS _ _ hdoc, decStr_encStr _ _ hc, hver]

/-- C10: for every well-formed `ServerMessage` (fields within their Rust
widths), `decode` of `encode` succeeds and returns the identical message —
same variant, same field values. -/
theorem servermessage_decode_encode (m : ServerMessage) (h : m.wf = true) :
    ServerMessage.decode (ServerMessage.encode m) = .ok m := by
  cases m with
  | Operation p =>
    simp only [ServerMessage.wf] at h
    simp only [ServerMessage.encode, ServerMessage.payload_parts, u32be,
      MSG_TYPE_OPERATION, List.cons_append, List.nil_append]
    simp [ServerMessage.decode, MSG_TYPE_OPERATION, MSG_TYPE_SYNC_DOCUMENT,
      MSG_TYPE_PING, MSG_TYPE_PONG, decodeOperationProto_roundtrip p h]
  | SyncDocument p =>
    simp only [ServerMessage.wf] at h
    simp only [ServerMessage.encode, ServerMessage.payload_parts, u32be,
      MSG_TYPE_SYNC_DOCUMENT, List.cons_append, List.nil_append]
    simp [ServerMessage.decode, MSG_TYPE_OPERATION, MSG_TYPE_SYNC_DOCUMENT,
      MSG_TYPE_PING, MSG_TYPE_PONG, decodeSyncDocumentProto_roundtrip p h]
  | Ping seq =>
    simp only [ServerMessage.wf, decide_eq_true_eq] at h
    simp only [ServerMessage.encode, ServerMessage.payload_parts, u32be,
      MSG_TYPE_PING, List.cons_append, List.nil_append]
    simp [ServerMessage.decode, MSG_TYPE_OPERATION, MSG_TYPE_SYNC_DOCUMENT,
      MSG_TYPE_PING, MSG_TYPE_PONG, u64be, beU64_u64be seq h, beU64]
    omega
  | Pong seq =>
    simp only [ServerMessage.wf, decide_eq_true_eq] at h
    simp only [ServerMessage.encode, ServerMessage.payload_parts, u32be,
      MSG_TYPE_PONG, List.cons_append, List.nil_append]
    simp [ServerMessage.decode, MSG_TYPE_OPERATION, MSG_TYPE_SYNC_DOCUMENT,
      MSG_TYPE_PING, MSG_TYPE_PONG, u64be, beU64_u64be seq h, beU64]
    omega

/-- Witness for C10: a concrete `Operation` message with every field
populated round-trips. -/
theorem servermessage_decode_encode_witness :
    ServerMessage.decode (ServerMessage.encode (.Operation
      { op_id := 9, doc_id := "doc", client_id := "cid", client_version := 2,
        new_content := "nc".data,
        kind := some (.insert ⟨1, "t".data, "A", 2⟩) })) =
      .ok (.Operation
        { op_id := 9, doc_id := "doc", client_id := "cid", client_version := 2,
          new_content := "nc".data,
          kind := some (.insert ⟨1, "t".data, "A", 2⟩) }) :=
  servermessage_decode_encode _ (by decide)

end DistSpace
